import Mathlib

/-!
Verification of the endpoint request-building / response-parsing /
middleware-composition core of the `rustify`-style HTTP endpoint library
(`src/endpoint.rs`).

The embedding models:

* the wire-type enumerations (`RequestMethod`, `RequestType`, `ResponseType`),
* transport-agnostic `Request` / `Response` values,
* the error taxonomy (`ClientError`),
* the request builder (`build_request`, `build_body`) and response parser
  (`parse`) — these live in the repository's `http` module, which is not part
  of the sources at hand, so they are modelled from the specification text,
* the `Endpoint` execution entry points (`exec`, `exec_mut`, `exec_wrap`,
  `exec_wrap_mut`, `exec_raw`, `exec_raw_mut` and their blocking twins),
  transcribed from `src/endpoint.rs`.

Effectful collaborators (the transport client and the middleware hooks) are
modelled as state-threading functions in `StateT σ (Except ClientError)`:
the state component `σ` stands for whatever internal state / observable
effects a collaborator has, and lets temporal claims (ordering of middleware
hooks around the transport call) be expressed via an event-recording
instantiation.

Bytes are modelled as `List Nat`; UTF-8 encoding/decoding is defined
explicitly and proved to round-trip, which backs the claims about the
best-effort UTF-8 body diagnostics on parse errors.
-/

namespace Rustify

/-- Byte strings (`bytes::Bytes` in the source) as lists of naturals. -/
abbrev Bytes := List Nat

/-- Modelled from the spec: the HTTP method enumeration (`crate::enums::RequestMethod`,
not under the given sources); spec §3 lists GET, POST, PUT, PATCH, DELETE. -/
inductive RequestMethod
  | GET
  | POST
  | PUT
  | PATCH
  | DELETE
deriving DecidableEq

/-- Modelled from the spec: the request body content type enumeration
(`crate::enums::RequestType`); only JSON is supported. -/
inductive RequestType
  | JSON
deriving DecidableEq

/-- Modelled from the spec: the response body content type enumeration
(`crate::enums::ResponseType`); only JSON is supported. -/
inductive ResponseType
  | JSON
deriving DecidableEq

/-- JSON values, used for query parameter values (`serde_json::Value`). -/
inductive Json
  | null
  | bool (b : Bool)
  | num (n : Int)
  | str (s : String)
  | arr (elems : List Json)
  | obj (fields : List (String × Json))

/-- Modelled from the spec: the error taxonomy of §7 (`crate::errors::ClientError`,
not under the given sources).  `UrlParseError` carries the offending URL string
and the underlying parse error; `DataParseError` the serialization error;
`ResponseParseError` the deserialization error plus a best-effort UTF-8 copy of
the body; `Other` stands for the opaque transport-layer and middleware errors
that this layer merely propagates. -/
inductive ClientError
  | UrlParseError (url : String) (source : String)
  | DataParseError (source : String)
  | ResponseParseError (source : String) (content : Option String)
  | Other (source : String)
deriving DecidableEq

/-! ## UTF-8 encoding and decoding

The spec's response parser attaches "the original body as a UTF-8 string if
valid" to `ResponseParseError`.  We model the byte-level UTF-8 codec
explicitly. -/

/-- Encode one unicode scalar value as its UTF-8 byte sequence. -/
def encodeChar (c : Char) : List Nat :=
  if c.toNat < 0x80 then
    [c.toNat]
  else if c.toNat < 0x800 then
    [0xC0 + c.toNat / 0x40, 0x80 + c.toNat % 0x40]
  else if c.toNat < 0x10000 then
    [0xE0 + c.toNat / 0x1000, 0x80 + c.toNat / 0x40 % 0x40, 0x80 + c.toNat % 0x40]
  else
    [0xF0 + c.toNat / 0x40000, 0x80 + c.toNat / 0x1000 % 0x40,
      0x80 + c.toNat / 0x40 % 0x40, 0x80 + c.toNat % 0x40]

/-- Encode a list of characters as UTF-8 bytes. -/
def encodeChars (cs : List Char) : Bytes :=
  cs.foldr (fun c acc => encodeChar c ++ acc) []

/-- The UTF-8 bytes of a string. -/
def utf8Encode (s : String) : Bytes :=
  encodeChars s.data

/-- Decode a UTF-8 byte sequence into characters; `none` on any ill-formed
sequence (truncated sequences, stray continuation bytes, overlong forms,
surrogates, out-of-range scalars). -/
def decodeChars : List Nat → Option (List Char)
  | [] => some []
  | b1 :: rest =>
    if b1 < 0x80 then
      (decodeChars rest).map (fun cs => Char.ofNat b1 :: cs)
    else if 0xC2 ≤ b1 ∧ b1 ≤ 0xDF then
      match rest with
      | b2 :: rest2 =>
        if 0x80 ≤ b2 ∧ b2 < 0xC0 then
          (decodeChars rest2).map (fun cs => Char.ofNat ((b1 - 0xC0) * 0x40 + (b2 - 0x80)) :: cs)
        else none
      | [] => none
    else if 0xE0 ≤ b1 ∧ b1 ≤ 0xEF then
      match rest with
      | b2 :: b3 :: rest3 =>
        if (0x80 ≤ b2 ∧ b2 < 0xC0) ∧ (0x80 ≤ b3 ∧ b3 < 0xC0) ∧
            0x800 ≤ (b1 - 0xE0) * 0x1000 + (b2 - 0x80) * 0x40 + (b3 - 0x80) ∧
            ¬(0xD800 ≤ (b1 - 0xE0) * 0x1000 + (b2 - 0x80) * 0x40 + (b3 - 0x80) ∧
              (b1 - 0xE0) * 0x1000 + (b2 - 0x80) * 0x40 + (b3 - 0x80) < 0xE000) then
          (decodeChars rest3).map
            (fun cs => Char.ofNat ((b1 - 0xE0) * 0x1000 + (b2 - 0x80) * 0x40 + (b3 - 0x80)) :: cs)
        else none
      | _ => none
    else if 0xF0 ≤ b1 ∧ b1 ≤ 0xF4 then
      match rest with
      | b2 :: b3 :: b4 :: rest4 =>
        if (0x80 ≤ b2 ∧ b2 < 0xC0) ∧ (0x80 ≤ b3 ∧ b3 < 0xC0) ∧ (0x80 ≤ b4 ∧ b4 < 0xC0) ∧
            0x10000 ≤ (b1 - 0xF0) * 0x40000 + (b2 - 0x80) * 0x1000 + (b3 - 0x80) * 0x40 + (b4 - 0x80) ∧
            (b1 - 0xF0) * 0x40000 + (b2 - 0x80) * 0x1000 + (b3 - 0x80) * 0x40 + (b4 - 0x80) < 0x110000 then
          (decodeChars rest4).map
            (fun cs =>
              Char.ofNat ((b1 - 0xF0) * 0x40000 + (b2 - 0x80) * 0x1000 + (b3 - 0x80) * 0x40 + (b4 - 0x80)) :: cs)
        else none
      | _ => none
    else none

/-- Best-effort UTF-8 decode of a body: `some` of the decoded string when the
bytes are well-formed UTF-8, `none` otherwise. -/
def utf8Decode (l : Bytes) : Option String :=
  (decodeChars l).map String.mk

/-! ## Decimal digits

A concrete decimal-number codec, used below to settle the JSON round-trip
claim on a concrete endpoint result type. -/

def digitChar (d : Nat) : Char := Char.ofNat (48 + d)

/-- Decimal digits of `n`, most significant first; structural recursion on a
fuel bound (sufficient whenever `n ≤ fuel`). -/
def natToDigitsFuel : Nat → Nat → List Char
  | 0, n => [digitChar n]
  | fuel + 1, n =>
    if n < 10 then [digitChar n]
    else natToDigitsFuel fuel (n / 10) ++ [digitChar (n % 10)]

/-- The decimal-digit text of `n`. -/
def natToDigits (n : Nat) : List Char := natToDigitsFuel n n

def isDigitChar (c : Char) : Bool := decide (48 ≤ c.toNat ∧ c.toNat ≤ 57)

def goDigits (acc : Nat) : List Char → Nat × List Char
  | [] => (acc, [])
  | c :: rest =>
    if isDigitChar c then goDigits (acc * 10 + (c.toNat - 48)) rest
    else (acc, c :: rest)

def takeNat : List Char → Option (Nat × List Char)
  | c :: rest =>
    if isDigitChar c then some (goDigits (c.toNat - 48) rest)
    else none
  | [] => none

/-! ## A concrete endpoint result type

`Count` models the spec's scenario "declared Result is a record with one
numeric field `count`"; `renderCount n` is the JSON document text for
`count = n`, and `decodeCount` is the JSON deserializer for `Count`
(a concrete stand-in for the external serde deserializer). -/

/-- A concrete deserialization target with a single numeric field. -/
structure Count where
  count : Nat
deriving DecidableEq

/-- The JSON document text for a `Count` with value `n` (no whitespace). -/
def renderCount (n : Nat) : String :=
  String.mk ('\x7b' :: '"' :: 'c' :: 'o' :: 'u' :: 'n' :: 't' :: '"' :: ':' ::
    (natToDigits n ++ ['\x7d']))

/-- Parse the JSON document text for a `Count`. -/
def parseCountJson (cs : List Char) : Except String Count :=
  match cs with
  | '\x7b' :: '"' :: 'c' :: 'o' :: 'u' :: 'n' :: 't' :: '"' :: ':' :: rest =>
    match takeNat rest with
    | some (n, ['\x7d']) => .ok ⟨n⟩
    | _ => .error "invalid JSON for Count"
  | _ => .error "invalid JSON for Count"

/-- JSON deserializer for `Count` from raw body bytes. -/
def decodeCount (body : Bytes) : Except String Count :=
  match utf8Decode body with
  | some s => parseCountJson s.data
  | none => .error "response body is not valid UTF-8"

/-! ## URL parsing and request building

`crate::http` (request building, URL handling, response parsing) is not among
the given sources, so these are modelled from the specification (§4.1, §4.2). -/

/-- A parsed URL: scheme, host, and path segments. -/
structure Url where
  scheme : String
  host : String
  segments : List String
deriving DecidableEq

/-- Split a character list on a separator character. -/
def splitOnChar (c : Char) (l : List Char) : List (List Char) :=
  l.foldr
    (fun x acc =>
      match acc with
      | [] => [[x]]
      | a :: rest => if x = c then [] :: a :: rest else (x :: a) :: rest)
    [[]]

/-- Split off the scheme part before the first "://". -/
def breakScheme : List Char → Option (List Char × List Char)
  | [] => none
  | x :: xs =>
    if x = ':' then
      match xs with
      | '/' :: '/' :: rest => some ([], rest)
      | _ => none
    else
      (breakScheme xs).map (fun p => (x :: p.1, p.2))

/-- Modelled from the spec: base-URL parsing (§4.1 "parse base URL; fail with
UrlParseError if base is not a valid URL").  A minimal absolute-URL grammar:
a scheme (http or https), "://", a non-empty host, and optional path
segments. -/
def parseUrl (s : String) : Except String Url :=
  match breakScheme s.data with
  | none => .error "relative URL without a base"
  | some (schemeCs, restCs) =>
    if String.mk schemeCs = "http" ∨ String.mk schemeCs = "https" then
      match splitOnChar '/' restCs with
      | [] => .error "empty URL"
      | host :: segs =>
        if host = [] then .error "empty host"
        else .ok ⟨String.mk schemeCs, String.mk host,
          (segs.filter (fun seg => seg ≠ [])).map String.mk⟩
    else .error "unsupported URL scheme"

/-- Split a relative endpoint path into its non-empty segments (§4.1 "Join the
endpoint path by splitting on / and extending the base path segments"). -/
def splitPath (p : String) : List String :=
  ((splitOnChar '/' p.data).filter (fun seg => seg ≠ [])).map String.mk

/-- A transport-agnostic request value (`http::Request<Bytes>`): URL, method,
query parameters, headers (middleware-populated), body bytes. -/
structure Request where
  url : Url
  method : RequestMethod
  query : List (String × Json)
  headers : List (String × String)
  body : Bytes

/-- A transport-agnostic response value (`http::Response<Bytes>`). -/
structure Response where
  status : Nat
  headers : List (String × String)
  body : Bytes
deriving DecidableEq

/-- The `Endpoint` trait of `src/endpoint.rs`, as a record of one concrete
endpoint instance.  `serialize` models the `serde::Serialize` implementation of
the endpoint struct (producing its JSON text, or failing); `decodeResult`
models the serde deserializer of the associated `Result` type. -/
structure Endpoint (R : Type) where
  REQUEST_BODY_TYPE : RequestType := RequestType.JSON
  RESPONSE_BODY_TYPE : ResponseType := ResponseType.JSON
  path : String
  method : RequestMethod
  query : List (String × Json) := []
  data : Option Bytes := none
  serialize : Except String String
  decodeResult : Bytes → Except String R

/-- Modelled from the spec: `crate::http::build_body` (§4.1).  If the `data`
override is present its raw bytes are used verbatim; otherwise the endpoint
instance is serialized to JSON, and a serialization of "\x7b\x7d" or "null"
is replaced by an empty body; serialization failure surfaces as
`DataParseError`. -/
def build_body (endpoint : Endpoint R) (ty : RequestType) (data : Option Bytes) :
    Except ClientError Bytes :=
  match data with
  | some d => .ok d
  | none =>
    match ty with
    | RequestType.JSON =>
      match endpoint.serialize with
      | .ok s => if s = "\x7b\x7d" ∨ s = "null" then .ok [] else .ok (utf8Encode s)
      | .error e => .error (ClientError.DataParseError e)

/-- Modelled from the spec: `crate::http::build_request` (§4.1).  Parses the
base URL (failing with `UrlParseError` carrying the offending string), joins
the endpoint path segments onto the base path, and attaches method, query and
body; headers start empty. -/
def build_request (base : String) (path : String) (method : RequestMethod)
    (query : List (String × Json)) (body : Bytes) : Except ClientError Request :=
  match parseUrl base with
  | .error e => .error (ClientError.UrlParseError base e)
  | .ok u =>
    .ok ⟨⟨u.scheme, u.host, u.segments ++ splitPath path⟩, method, query, [], body⟩

/-- Modelled from the spec: `crate::http::parse` (§4.2).  A zero-length body
yields `none` regardless of declared type; otherwise the body is deserialized
(JSON), and failure surfaces as `ResponseParseError` carrying the underlying
error and the best-effort UTF-8 decode of the body. -/
def parse (ty : ResponseType) (body : Bytes) (decode : Bytes → Except String R) :
    Except ClientError (Option R) :=
  if body.length = 0 then .ok none
  else
    match ty with
    | ResponseType.JSON =>
      match decode body with
      | .ok v => .ok (some v)
      | .error e => .error (ClientError.ResponseParseError e (utf8Decode body))

/-! ## Collaborators

The transport client and the middleware hooks are external, effectful
collaborators; they are modelled as state-threading functions over an
arbitrary state type `σ` (their internal state / observable effects). -/

/-- The asynchronous `Client` trait: a base URL and a transport `execute`. -/
structure Client (σ : Type) where
  base : String
  execute : Request → StateT σ (Except ClientError) Response

/-- The blocking `Client` trait (`crate::blocking::client::Client`): identical
shape, transport call blocks instead of suspending. -/
structure BlockingClient (σ : Type) where
  base : String
  execute : Request → StateT σ (Except ClientError) Response

/-- The `MiddleWare` trait: fallible request and response mutation hooks.
In-place mutation of `&mut Request` / `&mut Response` is modelled by
returning the new value. -/
structure MiddleWare (σ : Type) (R : Type) where
  request : Endpoint R → Request → StateT σ (Except ClientError) Request
  response : Endpoint R → Response → StateT σ (Except ClientError) Response

/-- The `Wrapper` trait: a deserializable envelope type `W` whose `Value` is
the endpoint's result type `R`.  Modelled by its serde deserializer. -/
structure Wrapper (R : Type) (W : Type) where
  decode : Bytes → Except String W

/-! ## Request building and execution (`src/endpoint.rs`) -/

/-- `build` (endpoint.rs lines 292-300): builds a `Request` from the base URL
path and `Endpoint`. -/
def build (base : String) (endpoint : Endpoint R) : Except ClientError Request := do
  let body ← build_body endpoint endpoint.REQUEST_BODY_TYPE endpoint.data
  build_request base endpoint.path endpoint.method endpoint.query body

/-- `build_mut` (endpoint.rs lines 303-318): builds a `Request` exactly as
`build` does, then passes it through the middleware's request hook. -/
def build_mut (base : String) (endpoint : Endpoint R) (middle : MiddleWare σ R) :
    StateT σ (Except ClientError) Request := do
  let body ← liftM (build_body endpoint endpoint.REQUEST_BODY_TYPE endpoint.data)
  let req ← liftM (build_request base endpoint.path endpoint.method endpoint.query body)
  middle.request endpoint req

/-- The free function `exec` (endpoint.rs lines 320-322): the raw transport
call. -/
def execReq (client : Client σ) (req : Request) : StateT σ (Except ClientError) Response :=
  client.execute req

/-- The free function `exec_mut` (endpoint.rs lines 324-333): transport call,
then the middleware's response hook. -/
def execReqMut (client : Client σ) (endpoint : Endpoint R) (req : Request)
    (middle : MiddleWare σ R) : StateT σ (Except ClientError) Response := do
  let resp ← client.execute req
  middle.response endpoint resp

/-- The free function `exec_block` (endpoint.rs lines 335-341). -/
def execReqBlock (client : BlockingClient σ) (req : Request) :
    StateT σ (Except ClientError) Response :=
  client.execute req

/-- The free function `exec_mut_block` (endpoint.rs lines 343-353). -/
def execReqMutBlock (client : BlockingClient σ) (endpoint : Endpoint R) (req : Request)
    (middle : MiddleWare σ R) : StateT σ (Except ClientError) Response := do
  let resp ← client.execute req
  middle.response endpoint resp

/-- `Endpoint::exec` (endpoint.rs lines 116-122). -/
def Endpoint.exec (endpoint : Endpoint R) (client : Client σ) :
    StateT σ (Except ClientError) (Option R) := do
  let req ← liftM (build client.base endpoint)
  let resp ← execReq client req
  liftM (parse endpoint.RESPONSE_BODY_TYPE resp.body endpoint.decodeResult)

/-- `Endpoint::exec_mut` (endpoint.rs lines 126-136). -/
def Endpoint.exec_mut (endpoint : Endpoint R) (client : Client σ) (middle : MiddleWare σ R) :
    StateT σ (Except ClientError) (Option R) := do
  let req ← build_mut client.base endpoint middle
  let resp ← execReqMut client endpoint req middle
  liftM (parse endpoint.RESPONSE_BODY_TYPE resp.body endpoint.decodeResult)

/-- `Endpoint::exec_wrap` (endpoint.rs lines 140-150). -/
def Endpoint.exec_wrap (endpoint : Endpoint R) (client : Client σ) (wrapper : Wrapper R W) :
    StateT σ (Except ClientError) (Option W) := do
  let req ← liftM (build client.base endpoint)
  let resp ← execReq client req
  liftM (parse endpoint.RESPONSE_BODY_TYPE resp.body wrapper.decode)

/-- `Endpoint::exec_wrap_mut` (endpoint.rs lines 154-165). -/
def Endpoint.exec_wrap_mut (endpoint : Endpoint R) (client : Client σ)
    (middle : MiddleWare σ R) (wrapper : Wrapper R W) :
    StateT σ (Except ClientError) (Option W) := do
  let req ← build_mut client.base endpoint middle
  let resp ← execReqMut client endpoint req middle
  liftM (parse endpoint.RESPONSE_BODY_TYPE resp.body wrapper.decode)

/-- `Endpoint::exec_raw` (endpoint.rs lines 169-175). -/
def Endpoint.exec_raw (endpoint : Endpoint R) (client : Client σ) :
    StateT σ (Except ClientError) Bytes := do
  let req ← liftM (build client.base endpoint)
  let resp ← execReq client req
  pure resp.body

/-- `Endpoint::exec_raw_mut` (endpoint.rs lines 179-189). -/
def Endpoint.exec_raw_mut (endpoint : Endpoint R) (client : Client σ)
    (middle : MiddleWare σ R) : StateT σ (Except ClientError) Bytes := do
  let req ← build_mut client.base endpoint middle
  let resp ← execReqMut client endpoint req middle
  pure resp.body

/-- `Endpoint::exec_block` (endpoint.rs lines 193-203). -/
def Endpoint.exec_block (endpoint : Endpoint R) (client : BlockingClient σ) :
    StateT σ (Except ClientError) (Option R) := do
  let req ← liftM (build client.base endpoint)
  let resp ← execReqBlock client req
  liftM (parse endpoint.RESPONSE_BODY_TYPE resp.body endpoint.decodeResult)

/-- `Endpoint::exec_mut_block` (endpoint.rs lines 207-218). -/
def Endpoint.exec_mut_block (endpoint : Endpoint R) (client : BlockingClient σ)
    (middle : MiddleWare σ R) : StateT σ (Except ClientError) (Option R) := do
  let req ← build_mut client.base endpoint middle
  let resp ← execReqMutBlock client endpoint req middle
  liftM (parse endpoint.RESPONSE_BODY_TYPE resp.body endpoint.decodeResult)

/-- `Endpoint::exec_wrap_block` (endpoint.rs lines 222-233). -/
def Endpoint.exec_wrap_block (endpoint : Endpoint R) (client : BlockingClient σ)
    (wrapper : Wrapper R W) : StateT σ (Except ClientError) (Option W) := do
  let req ← liftM (build client.base endpoint)
  let resp ← execReqBlock client req
  liftM (parse endpoint.RESPONSE_BODY_TYPE resp.body wrapper.decode)

/-- `Endpoint::exec_wrap_mut_block` (endpoint.rs lines 237-249). -/
def Endpoint.exec_wrap_mut_block (endpoint : Endpoint R) (client : BlockingClient σ)
    (middle : MiddleWare σ R) (wrapper : Wrapper R W) :
    StateT σ (Except ClientError) (Option W) := do
  let req ← build_mut client.base endpoint middle
  let resp ← execReqMutBlock client endpoint req middle
  liftM (parse endpoint.RESPONSE_BODY_TYPE resp.body wrapper.decode)

/-- `Endpoint::exec_raw_block` (endpoint.rs lines 253-260). -/
def Endpoint.exec_raw_block (endpoint : Endpoint R) (client : BlockingClient σ) :
    StateT σ (Except ClientError) Bytes := do
  let req ← liftM (build client.base endpoint)
  let resp ← execReqBlock client req
  pure resp.body

/-- `Endpoint::exec_raw_mut_block` (endpoint.rs lines 264-275). -/
def Endpoint.exec_raw_mut_block (endpoint : Endpoint R) (client : BlockingClient σ)
    (middle : MiddleWare σ R) : StateT σ (Except ClientError) Bytes := do
  let req ← build_mut client.base endpoint middle
  let resp ← execReqMutBlock client endpoint req middle
  pure resp.body


/-! ## Instrumentation and concrete fixtures

An event-recording instantiation of the collaborators (used to settle the
temporal middleware-ordering claim), plus concrete endpoints, clients and
middlewares used to witness the theorems on closed inputs. -/

/-- Observable collaborator events, recorded in the state component. -/
inductive Event
  | requestHook (req : Request)
  | transportExec (req : Request)
  | responseHook (resp : Response)

/-- A middleware built from pure request/response transforms that records
every hook invocation (with its argument) in the state. -/
def loggingMiddleWare {R : Type} (f : Request → Request) (g : Response → Response) :
    MiddleWare (List Event) R where
  request := fun _ r => fun tr => Except.ok (f r, tr ++ [Event.requestHook r])
  response := fun _ p => fun tr => Except.ok (g p, tr ++ [Event.responseHook p])

/-- A client built from a pure transport function that records every
`execute` invocation (with its argument) in the state. -/
def loggingClient (base : String) (t : Request → Response) : Client (List Event) where
  base := base
  execute := fun r => fun tr => Except.ok (t r, tr ++ [Event.transportExec r])

/-- A blocking client built from a pure transport function that records every
`execute` invocation (with its argument) in the state. -/
def loggingBlockingClient (base : String) (t : Request → Response) :
    BlockingClient (List Event) where
  base := base
  execute := fun r => fun tr => Except.ok (t r, tr ++ [Event.transportExec r])

/-- The identity middleware: both hooks succeed and change nothing. -/
def mwIdentity (σ : Type) (R : Type) : MiddleWare σ R where
  request := fun _ r => pure r
  response := fun _ p => pure p

/-- A middleware whose request hook rewrites the request body to be empty. -/
def mwClearBody (σ : Type) (R : Type) : MiddleWare σ R where
  request := fun _ r => pure { r with body := [] }
  response := fun _ p => pure p

/-- A middleware whose response hook rewrites the response body. -/
def mwSetRespBody (σ : Type) (R : Type) (b : Bytes) : MiddleWare σ R where
  request := fun _ r => pure r
  response := fun _ p => pure { p with body := b }

/-- A client answering every request with a fixed response. -/
def constClient (σ : Type) (base : String) (resp : Response) : Client σ where
  base := base
  execute := fun _ => pure resp

/-- A blocking client answering every request with a fixed response. -/
def constBlockingClient (σ : Type) (base : String) (resp : Response) : BlockingClient σ where
  base := base
  execute := fun _ => pure resp

/-- A concrete endpoint with result type `Count` and no data override. -/
def epCount : Endpoint Count where
  path := "v1/items"
  method := RequestMethod.GET
  serialize := Except.ok "\x7b\x7d"
  decodeResult := decodeCount

/-- A concrete endpoint with result type `Count` and a raw data override. -/
def epData : Endpoint Count where
  path := "v1/items"
  method := RequestMethod.GET
  data := some [1, 2, 3]
  serialize := Except.ok "\x7b\x7d"
  decodeResult := decodeCount

/-- The request `build` produces for `epCount` against base "http://a". -/
def reqCount : Request where
  url := ⟨"http", "a", ["v1", "items"]⟩
  method := RequestMethod.GET
  query := []
  headers := []
  body := []


/-- A response carrying the JSON document for `Count` with value 3. -/
def respJson3 : Response := ⟨200, [], utf8Encode (renderCount 3)⟩

/-- A wrapper for `Count` whose `Value` is `Count` itself. -/
def wrapCount : Wrapper Count Count := ⟨decodeCount⟩

/-- A pure request transform adding an Authorization header. -/
def addAuthHeader (r : Request) : Request :=
  { r with headers := r.headers ++ [("Authorization", "Bearer T")] }

/-! # Theorems -/

/-! ### Correctness of the UTF-8 codec -/

theorem valid_toNat (c : Char) : c.toNat < 0xD800 ∨ (0xE000 ≤ c.toNat ∧ c.toNat < 0x110000) := by
  have h := c.valid
  simp only [UInt32.isValidChar, Nat.isValidChar, Char.toNat] at h ⊢
  omega

theorem toNat_ofNat_valid (n : Nat) (h : n.isValidChar) : (Char.ofNat n).toNat = n := by
  simp [Char.ofNat, h, Char.ofNatAux, Char.toNat, UInt32.toNat, BitVec.toNat_ofNatLt]

theorem ofNat_toNat_self (c : Char) : Char.ofNat c.toNat = c := by
  have h := c.valid
  apply Char.eq_of_val_eq
  simp [Char.ofNat, Char.toNat, h, Char.ofNatAux]
  apply UInt32.eq_of_toBitVec_eq
  apply BitVec.eq_of_toNat_eq
  simp [BitVec.toNat_ofNatLt, UInt32.toNat]

theorem encodeChars_cons (c : Char) (cs : List Char) :
    encodeChars (c :: cs) = encodeChar c ++ encodeChars cs := rfl

theorem decodeChars_cons (b1 : Nat) (rest : List Nat) :
    decodeChars (b1 :: rest) =
      (if b1 < 0x80 then
        (decodeChars rest).map (fun cs => Char.ofNat b1 :: cs)
      else if 0xC2 ≤ b1 ∧ b1 ≤ 0xDF then
        match rest with
        | b2 :: rest2 =>
          if 0x80 ≤ b2 ∧ b2 < 0xC0 then
            (decodeChars rest2).map (fun cs => Char.ofNat ((b1 - 0xC0) * 0x40 + (b2 - 0x80)) :: cs)
          else none
        | [] => none
      else if 0xE0 ≤ b1 ∧ b1 ≤ 0xEF then
        match rest with
        | b2 :: b3 :: rest3 =>
          if (0x80 ≤ b2 ∧ b2 < 0xC0) ∧ (0x80 ≤ b3 ∧ b3 < 0xC0) ∧
              0x800 ≤ (b1 - 0xE0) * 0x1000 + (b2 - 0x80) * 0x40 + (b3 - 0x80) ∧
              ¬(0xD800 ≤ (b1 - 0xE0) * 0x1000 + (b2 - 0x80) * 0x40 + (b3 - 0x80) ∧
                (b1 - 0xE0) * 0x1000 + (b2 - 0x80) * 0x40 + (b3 - 0x80) < 0xE000) then
            (decodeChars rest3).map
              (fun cs => Char.ofNat ((b1 - 0xE0) * 0x1000 + (b2 - 0x80) * 0x40 + (b3 - 0x80)) :: cs)
          else none
        | _ => none
      else if 0xF0 ≤ b1 ∧ b1 ≤ 0xF4 then
        match rest with
        | b2 :: b3 :: b4 :: rest4 =>
          if (0x80 ≤ b2 ∧ b2 < 0xC0) ∧ (0x80 ≤ b3 ∧ b3 < 0xC0) ∧ (0x80 ≤ b4 ∧ b4 < 0xC0) ∧
              0x10000 ≤ (b1 - 0xF0) * 0x40000 + (b2 - 0x80) * 0x1000 + (b3 - 0x80) * 0x40 + (b4 - 0x80) ∧
              (b1 - 0xF0) * 0x40000 + (b2 - 0x80) * 0x1000 + (b3 - 0x80) * 0x40 + (b4 - 0x80) < 0x110000 then
            (decodeChars rest4).map
              (fun cs =>
                Char.ofNat ((b1 - 0xF0) * 0x40000 + (b2 - 0x80) * 0x1000 + (b3 - 0x80) * 0x40 + (b4 - 0x80)) :: cs)
          else none
        | _ => none
      else none) := by
  rcases rest with _ | ⟨b2, _ | ⟨b3, _ | ⟨b4, rest4⟩⟩⟩ <;> rfl

theorem decode_encodeChar (c : Char) (rest : List Nat) :
    decodeChars (encodeChar c ++ rest) = (decodeChars rest).map (fun cs => c :: cs) := by
  have hv := valid_toNat c
  by_cases h1 : c.toNat < 0x80
  · rw [encodeChar, if_pos h1]
    simp only [List.cons_append, List.nil_append]
    rw [decodeChars_cons, if_pos h1, ofNat_toNat_self]
  · by_cases h2 : c.toNat < 0x800
    · rw [encodeChar, if_neg h1, if_pos h2]
      simp only [List.cons_append, List.nil_append]
      rw [decodeChars_cons, if_neg (by omega), if_pos (show 0xC2 ≤ 0xC0 + c.toNat / 0x40 ∧ 0xC0 + c.toNat / 0x40 ≤ 0xDF by omega)]
      simp only [if_pos (show 0x80 ≤ 0x80 + c.toNat % 0x40 ∧ 0x80 + c.toNat % 0x40 < 0xC0 by omega)]
      have hn : (0xC0 + c.toNat / 0x40 - 0xC0) * 0x40 + (0x80 + c.toNat % 0x40 - 0x80) = c.toNat := by omega
      rw [hn, ofNat_toNat_self]
    · by_cases h3 : c.toNat < 0x10000
      · rw [encodeChar, if_neg h1, if_neg h2, if_pos h3]
        simp only [List.cons_append, List.nil_append]
        rw [decodeChars_cons, if_neg (by omega), if_neg (by omega),
          if_pos (show 0xE0 ≤ 0xE0 + c.toNat / 0x1000 ∧ 0xE0 + c.toNat / 0x1000 ≤ 0xEF by omega)]
        simp only [if_pos (show (0x80 ≤ 0x80 + c.toNat / 0x40 % 0x40 ∧ 0x80 + c.toNat / 0x40 % 0x40 < 0xC0) ∧
          (0x80 ≤ 0x80 + c.toNat % 0x40 ∧ 0x80 + c.toNat % 0x40 < 0xC0) ∧
          0x800 ≤ (0xE0 + c.toNat / 0x1000 - 0xE0) * 0x1000 + (0x80 + c.toNat / 0x40 % 0x40 - 0x80) * 0x40 + (0x80 + c.toNat % 0x40 - 0x80) ∧
          ¬(0xD800 ≤ (0xE0 + c.toNat / 0x1000 - 0xE0) * 0x1000 + (0x80 + c.toNat / 0x40 % 0x40 - 0x80) * 0x40 + (0x80 + c.toNat % 0x40 - 0x80) ∧
            (0xE0 + c.toNat / 0x1000 - 0xE0) * 0x1000 + (0x80 + c.toNat / 0x40 % 0x40 - 0x80) * 0x40 + (0x80 + c.toNat % 0x40 - 0x80) < 0xE000) by
          refine ⟨⟨by omega, by omega⟩, ⟨by omega, by omega⟩, by omega, by omega⟩)]
        have hn : (0xE0 + c.toNat / 0x1000 - 0xE0) * 0x1000 + (0x80 + c.toNat / 0x40 % 0x40 - 0x80) * 0x40 +
            (0x80 + c.toNat % 0x40 - 0x80) = c.toNat := by omega
        rw [hn, ofNat_toNat_self]
      · rw [encodeChar, if_neg h1, if_neg h2, if_neg h3]
        simp only [List.cons_append, List.nil_append]
        rw [decodeChars_cons, if_neg (by omega), if_neg (by omega), if_neg (by omega),
          if_pos (show 0xF0 ≤ 0xF0 + c.toNat / 0x40000 ∧ 0xF0 + c.toNat / 0x40000 ≤ 0xF4 by omega)]
        simp only [if_pos (show (0x80 ≤ 0x80 + c.toNat / 0x1000 % 0x40 ∧ 0x80 + c.toNat / 0x1000 % 0x40 < 0xC0) ∧
          (0x80 ≤ 0x80 + c.toNat / 0x40 % 0x40 ∧ 0x80 + c.toNat / 0x40 % 0x40 < 0xC0) ∧
          (0x80 ≤ 0x80 + c.toNat % 0x40 ∧ 0x80 + c.toNat % 0x40 < 0xC0) ∧
          0x10000 ≤ (0xF0 + c.toNat / 0x40000 - 0xF0) * 0x40000 + (0x80 + c.toNat / 0x1000 % 0x40 - 0x80) * 0x1000 + (0x80 + c.toNat / 0x40 % 0x40 - 0x80) * 0x40 + (0x80 + c.toNat % 0x40 - 0x80) ∧
          (0xF0 + c.toNat / 0x40000 - 0xF0) * 0x40000 + (0x80 + c.toNat / 0x1000 % 0x40 - 0x80) * 0x1000 + (0x80 + c.toNat / 0x40 % 0x40 - 0x80) * 0x40 + (0x80 + c.toNat % 0x40 - 0x80) < 0x110000 by
          refine ⟨⟨by omega, by omega⟩, ⟨by omega, by omega⟩, ⟨by omega, by omega⟩, by omega, by omega⟩)]
        have hn : (0xF0 + c.toNat / 0x40000 - 0xF0) * 0x40000 + (0x80 + c.toNat / 0x1000 % 0x40 - 0x80) * 0x1000 +
            (0x80 + c.toNat / 0x40 % 0x40 - 0x80) * 0x40 + (0x80 + c.toNat % 0x40 - 0x80) = c.toNat := by omega
        rw [hn, ofNat_toNat_self]

theorem decodeChars_encodeChars (cs : List Char) : decodeChars (encodeChars cs) = some cs := by
  induction cs with
  | nil => rfl
  | cons c cs ih => rw [encodeChars_cons, decode_encodeChar, ih, Option.map_some']

theorem utf8Decode_utf8Encode (s : String) : utf8Decode (utf8Encode s) = some s := by
  rw [utf8Decode, utf8Encode, decodeChars_encodeChars, Option.map_some']

theorem decodeChars_sound (l : List Nat) : ∀ cs, decodeChars l = some cs → encodeChars cs = l := by
  induction l using decodeChars.induct with
  | case1 =>
    intro cs h
    have h2 : some ([] : List Char) = some cs := h
    injection h2 with h3
    subst h3
    rfl
  | case2 b1 rest h1 ih =>
    intro cs h
    rw [decodeChars_cons, if_pos h1] at h
    rw [Option.map_eq_some'] at h
    obtain ⟨cs', hdec, rfl⟩ := h
    rw [encodeChars_cons, ih cs' hdec]
    have ht : (Char.ofNat b1).toNat = b1 := toNat_ofNat_valid _ (Or.inl (by omega))
    rw [encodeChar, ht, if_pos h1]
    simp
  | case3 b1 h1 h2 b2 rest2 h3 ih =>
    intro cs h
    rw [decodeChars_cons, if_neg h1, if_pos h2] at h
    simp only [if_pos h3] at h
    rw [Option.map_eq_some'] at h
    obtain ⟨cs', hdec, rfl⟩ := h
    rw [encodeChars_cons, ih cs' hdec]
    have ht : (Char.ofNat ((b1 - 0xC0) * 0x40 + (b2 - 0x80))).toNat = (b1 - 0xC0) * 0x40 + (b2 - 0x80) :=
      toNat_ofNat_valid _ (Or.inl (by omega))
    rw [encodeChar, ht, if_neg (by omega), if_pos (by omega)]
    simp only [List.cons_append, List.nil_append, List.cons.injEq, and_true]
    exact ⟨by omega, by omega⟩
  | case4 b1 h1 h2 b2 rest2 h3 =>
    intro cs h
    rw [decodeChars_cons, if_neg h1, if_pos h2] at h
    simp only [if_neg h3] at h
    simp at h
  | case5 b1 h1 h2 =>
    intro cs h
    rw [decodeChars_cons, if_neg h1, if_pos h2] at h
    simp at h
  | case6 b1 h1 h2 h3 b2 b3 rest3 hg ih =>
    intro cs h
    rw [decodeChars_cons, if_neg h1, if_neg h2, if_pos h3] at h
    simp only [if_pos hg] at h
    rw [Option.map_eq_some'] at h
    obtain ⟨cs', hdec, rfl⟩ := h
    rw [encodeChars_cons, ih cs' hdec]
    obtain ⟨hb2, hb3, hlo, hsur⟩ := hg
    have ht : (Char.ofNat ((b1 - 0xE0) * 0x1000 + (b2 - 0x80) * 0x40 + (b3 - 0x80))).toNat =
        (b1 - 0xE0) * 0x1000 + (b2 - 0x80) * 0x40 + (b3 - 0x80) :=
      toNat_ofNat_valid _ (by omega)
    rw [encodeChar, ht, if_neg (by omega), if_neg (by omega), if_pos (by omega)]
    simp only [List.cons_append, List.nil_append, List.cons.injEq, and_true]
    exact ⟨by omega, by omega, by omega⟩
  | case7 b1 h1 h2 h3 b2 b3 rest3 hg =>
    intro cs h
    rw [decodeChars_cons, if_neg h1, if_neg h2, if_pos h3] at h
    simp only [if_neg hg] at h
    simp at h
  | case8 b1 rest h1 h2 h3 hshape =>
    intro cs h
    rw [decodeChars_cons, if_neg h1, if_neg h2, if_pos h3] at h
    rcases rest with _ | ⟨b2, _ | ⟨b3, rest3⟩⟩
    · simp at h
    · simp at h
    · exact absurd rfl (fun hh => hshape b2 b3 rest3 hh)
  | case9 b1 h1 h2 h3 h4 b2 b3 b4 rest4 hg ih =>
    intro cs h
    rw [decodeChars_cons, if_neg h1, if_neg h2, if_neg h3, if_pos h4] at h
    simp only [if_pos hg] at h
    rw [Option.map_eq_some'] at h
    obtain ⟨cs', hdec, rfl⟩ := h
    rw [encodeChars_cons, ih cs' hdec]
    obtain ⟨hb2, hb3, hb4, hlo, hhi⟩ := hg
    have ht : (Char.ofNat ((b1 - 0xF0) * 0x40000 + (b2 - 0x80) * 0x1000 + (b3 - 0x80) * 0x40 + (b4 - 0x80))).toNat =
        (b1 - 0xF0) * 0x40000 + (b2 - 0x80) * 0x1000 + (b3 - 0x80) * 0x40 + (b4 - 0x80) :=
      toNat_ofNat_valid _ (by omega)
    rw [encodeChar, ht, if_neg (by omega), if_neg (by omega), if_neg (by omega)]
    simp only [List.cons_append, List.nil_append, List.cons.injEq, and_true]
    exact ⟨by omega, by omega, by omega, by omega⟩
  | case10 b1 h1 h2 h3 h4 b2 b3 b4 rest4 hg =>
    intro cs h
    rw [decodeChars_cons, if_neg h1, if_neg h2, if_neg h3, if_pos h4] at h
    simp only [if_neg hg] at h
    simp at h
  | case11 b1 rest h1 h2 h3 h4 hshape =>
    intro cs h
    rw [decodeChars_cons, if_neg h1, if_neg h2, if_neg h3, if_pos h4] at h
    rcases rest with _ | ⟨b2, _ | ⟨b3, _ | ⟨b4, rest4⟩⟩⟩
    · simp at h
    · simp at h
    · simp at h
    · exact absurd rfl (fun hh => hshape b2 b3 b4 rest4 hh)
  | case12 b1 rest h1 h2 h3 h4 =>
    intro cs h
    rw [decodeChars_cons, if_neg h1, if_neg h2, if_neg h3, if_neg h4] at h
    simp at h

theorem utf8Decode_sound (l : Bytes) (s : String) (h : utf8Decode l = some s) : utf8Encode s = l := by
  rw [utf8Decode, Option.map_eq_some'] at h
  obtain ⟨cs, hdec, rfl⟩ := h
  exact decodeChars_sound l cs hdec


/-! ## Decimal digits

A concrete decimal-number codec, used to settle the JSON round-trip claim on
a concrete endpoint result type. -/

theorem digitChar_toNat (d : Nat) (h : d < 10) : (digitChar d).toNat = 48 + d :=
  toNat_ofNat_valid _ (Or.inl (by omega))

theorem isDigitChar_digitChar (d : Nat) (h : d < 10) : isDigitChar (digitChar d) = true := by
  simp only [isDigitChar, digitChar_toNat d h, decide_eq_true_eq]
  omega

theorem goDigits_stop (acc : Nat) (rest : List Char)
    (hnd : ∀ c tail, rest = c :: tail → isDigitChar c = false) :
    goDigits acc rest = (acc, rest) := by
  cases rest with
  | nil => rfl
  | cons c tail =>
    simp only [goDigits]
    rw [if_neg]
    simp [hnd c tail rfl]

theorem goDigits_digitsFuel : ∀ fuel n, n ≤ fuel → ∀ (acc : Nat) (rest : List Char),
    goDigits acc (natToDigitsFuel fuel n ++ rest) =
      goDigits (acc * 10 ^ (natToDigitsFuel fuel n).length + n) rest := by
  intro fuel
  induction fuel with
  | zero =>
    intro n hn acc rest
    obtain rfl : n = 0 := by omega
    simp only [natToDigitsFuel, List.cons_append, List.nil_append, goDigits, List.length_cons,
      List.length_nil]
    rw [if_pos (isDigitChar_digitChar 0 (by omega)), digitChar_toNat 0 (by omega)]
    have h1 : acc * 10 + (48 + 0 - 48) = acc * 10 ^ (0 + 1) + 0 := by omega
    rw [h1]
    rfl
  | succ fuel ih =>
    intro n hn acc rest
    by_cases h : n < 10
    · simp only [natToDigitsFuel]
      rw [if_pos h]
      simp only [List.cons_append, List.nil_append, goDigits, List.length_cons, List.length_nil]
      rw [if_pos (isDigitChar_digitChar n h), digitChar_toNat n h]
      have h1 : acc * 10 + (48 + n - 48) = acc * 10 ^ (0 + 1) + n := by omega
      rw [h1]
      rfl
    · simp only [natToDigitsFuel]
      rw [if_neg h]
      rw [List.append_assoc, List.singleton_append]
      rw [ih (n / 10) (by omega) acc (digitChar (n % 10) :: rest)]
      simp only [goDigits]
      rw [if_pos (isDigitChar_digitChar (n % 10) (by omega)), digitChar_toNat (n % 10) (by omega)]
      have hsub : 48 + n % 10 - 48 = n % 10 := by omega
      rw [hsub]
      have h2 : (acc * 10 ^ (natToDigitsFuel fuel (n / 10)).length + n / 10) * 10 + n % 10 =
          acc * 10 ^ ((natToDigitsFuel fuel (n / 10)).length + 1) + n := by
        rw [pow_succ]
        have hmod : n / 10 * 10 + n % 10 = n := by omega
        calc (acc * 10 ^ (natToDigitsFuel fuel (n / 10)).length + n / 10) * 10 + n % 10
            = acc * (10 ^ (natToDigitsFuel fuel (n / 10)).length * 10) + (n / 10 * 10 + n % 10) := by
              ring
          _ = acc * (10 ^ (natToDigitsFuel fuel (n / 10)).length * 10) + n := by rw [hmod]
      rw [h2]
      congr 1
      simp [List.length_append]

theorem natToDigitsFuel_shape : ∀ fuel n, n ≤ fuel →
    ∃ d tail, natToDigitsFuel fuel n = digitChar d :: tail ∧ d < 10 := by
  intro fuel
  induction fuel with
  | zero =>
    intro n hn
    obtain rfl : n = 0 := by omega
    exact ⟨0, [], rfl, by omega⟩
  | succ fuel ih =>
    intro n hn
    by_cases h : n < 10
    · exact ⟨n, [], by simp only [natToDigitsFuel]; rw [if_pos h], h⟩
    · obtain ⟨d, tail, hshape, hd⟩ := ih (n / 10) (by omega)
      refine ⟨d, tail ++ [digitChar (n % 10)], ?_, hd⟩
      simp only [natToDigitsFuel]
      rw [if_neg h, hshape]
      simp

theorem parseNat_digits (n : Nat) (rest : List Char)
    (hnd : ∀ c tail, rest = c :: tail → isDigitChar c = false) :
    takeNat (natToDigits n ++ rest) = some (n, rest) := by
  have hkey : goDigits 0 (natToDigits n ++ rest) = (n, rest) := by
    rw [natToDigits, goDigits_digitsFuel n n (by omega)]
    have hz : 0 * 10 ^ (natToDigitsFuel n n).length + n = n := by omega
    rw [hz]
    exact goDigits_stop n rest hnd
  obtain ⟨d, tail, hshape, hd⟩ := natToDigitsFuel_shape n n (by omega)
  rw [natToDigits] at hkey ⊢
  rw [hshape] at hkey ⊢
  have hstep : goDigits 0 ((digitChar d :: tail) ++ rest) = goDigits d (tail ++ rest) := by
    simp only [List.cons_append, goDigits]
    rw [if_pos (isDigitChar_digitChar d hd), digitChar_toNat d hd]
    have hz2 : 0 * 10 + (48 + d - 48) = d := by omega
    rw [hz2]
    rfl
  rw [hstep] at hkey
  simp only [List.cons_append, takeNat]
  rw [if_pos (isDigitChar_digitChar d hd), digitChar_toNat d hd]
  have hz3 : 48 + d - 48 = d := by omega
  rw [hz3, hkey]

theorem decodeCount_renderCount (n : Nat) :
    decodeCount (utf8Encode (renderCount n)) = .ok ⟨n⟩ := by
  simp only [decodeCount, utf8Decode_utf8Encode]
  simp only [renderCount, parseCountJson]
  rw [parseNat_digits n ['\x7d'] (by intro c tail hh; cases hh; rfl)]
  rfl

/-! ## Running the state monad -/

/-- Unfold a bind under `StateT.run`. -/
theorem runBind {σ α β : Type} (x : StateT σ (Except ClientError) α)
    (f : α → StateT σ (Except ClientError) β) (s : σ) :
    (x >>= f).run s = (x.run s).bind (fun p => (f p.1).run p.2) := rfl

/-- Unfold a lifted `Except` computation under `StateT.run`. -/
theorem runLift {σ α : Type} (m : Except ClientError α) (s : σ) :
    (liftM m : StateT σ (Except ClientError) α).run s = m.map (fun a => (a, s)) := by
  cases m <;> rfl

/-- Unfold a `pure` under `StateT.run`. -/
theorem runPure {σ α : Type} (a : α) (s : σ) :
    (pure a : StateT σ (Except ClientError) α).run s = Except.ok (a, s) := rfl


/-- Unfold a bind of a successful `Except` computation. -/
theorem okBind {ε α β : Type} (a : α) (f : α → Except ε β) :
    (Except.ok a >>= f : Except ε β) = f a := rfl

/-- Unfold a bind of a failed `Except` computation. -/
theorem errBind {ε α β : Type} (e : ε) (f : α → Except ε β) :
    (Except.error e >>= f : Except ε β) = Except.error e := rfl

/-- Unfold a map of a successful `Except` computation. -/
theorem okMap {ε α β : Type} (f : α → β) (a : α) :
    ((Except.ok a : Except ε α).map f) = Except.ok (f a) := rfl

/-- Unfold a map of a failed `Except` computation. -/
theorem errMap {ε α β : Type} (f : α → β) (e : ε) :
    ((Except.error e : Except ε α).map f : Except ε β) = Except.error e := rfl

/-- Unfold `Except.bind` applied to a success. -/
theorem okBindE {ε α β : Type} (a : α) (f : α → Except ε β) :
    (Except.ok a : Except ε α).bind f = f a := rfl

/-- Unfold `Except.bind` applied to a failure. -/
theorem errBindE {ε α β : Type} (e : ε) (f : α → Except ε β) :
    ((Except.error e : Except ε α).bind f : Except ε β) = Except.error e := rfl

/-! ## Claims -/

/-- C1 counterexample: the claim also asserts that the body of the request
returned by `build_mut` equals the data override; but `build_mut` feeds the
built request through the middleware request hook, which may rewrite the
body.  With the body-clearing middleware, `build_mut` returns a request whose
body is `[]`, not the override `[1, 2, 3]`. -/
theorem c1_counterexample :
    epData.data = some [1, 2, 3] ∧
    (build_mut "http://a" epData (mwClearBody Unit Count)).run () =
      Except.ok (⟨⟨"http", "a", ["v1", "items"]⟩, RequestMethod.GET, [], [], []⟩, ()) ∧
    ([] : Bytes) ≠ [1, 2, 3] :=
  ⟨rfl, rfl, by decide⟩

/-- C1 (amended): for every endpoint with a non-empty `data` override, the
request body built by `build` equals that override's bytes exactly, regardless
of the endpoint's own serializable field values (the `serialize` field is
unconstrained here), and the default field serialization is never used; the
same holds for `build_mut` whenever the middleware request hook preserves the
request body. -/
theorem c1_data_override_determines_body {R σ : Type} (base : String)
    (endpoint : Endpoint R) (d : Bytes) (middle : MiddleWare σ R)
    (hdata : endpoint.data = some d) (hne : d ≠ []) :
    (∀ req, build base endpoint = Except.ok req → req.body = d) ∧
    (∀ s req s',
      (∀ r s₀ r' s₀',
        (middle.request endpoint r).run s₀ = Except.ok (r', s₀') → r'.body = r.body) →
      (build_mut base endpoint middle).run s = Except.ok (req, s') → req.body = d) := by
  constructor
  · intro req h
    simp only [build, hdata, build_body, okBind] at h
    cases hu : parseUrl base with
    | error e =>
      simp only [build_request, hu] at h
      exact Except.noConfusion h
    | ok u =>
      simp only [build_request, hu] at h
      injection h with h2
      subst h2
      rfl
  · intro s req s' hpres h
    simp only [build_mut, hdata, build_body, runBind, runLift, okMap, okBind] at h
    cases hu : parseUrl base with
    | error e =>
      simp only [build_request, hu, errMap] at h
      exact Except.noConfusion h
    | ok u =>
      simp only [build_request, hu, okMap, okBind] at h
      have := hpres _ _ _ _ h
      rw [this]

/-- C1 witness: at the concrete endpoint `epData` (override `[1, 2, 3]`), the
request built by `build` against base "http://a" carries exactly those bytes. -/
theorem c1_witness :
    epData.data = some [1, 2, 3] ∧
    (⟨⟨"http", "a", ["v1", "items"]⟩, RequestMethod.GET, [], [],
      [1, 2, 3]⟩ : Request).body = [1, 2, 3] :=
  ⟨rfl,
    (c1_data_override_determines_body "http://a" epData [1, 2, 3] (mwIdentity Unit Count)
      rfl (by decide)).1 _ rfl⟩

/-- C2: when the `data` override is absent and the endpoint serializes to the
literal empty-object text or to JSON null, the built request body is the empty
byte sequence; otherwise it is exactly the UTF-8 bytes of the JSON
serialization of the endpoint struct. -/
theorem c2_empty_serialization_empty_body {R : Type} (base : String)
    (endpoint : Endpoint R) (str : String) (req : Request)
    (hdata : endpoint.data = none) (hser : endpoint.serialize = Except.ok str)
    (h : build base endpoint = Except.ok req) :
    req.body = if str = "\x7b\x7d" ∨ str = "null" then [] else utf8Encode str := by
  simp only [build, hdata, build_body, hser] at h
  by_cases hc : str = "\x7b\x7d" ∨ str = "null"
  · rw [if_pos hc]
    rw [if_pos hc] at h
    simp only [okBind] at h
    cases hu : parseUrl base with
    | error e =>
      simp only [build_request, hu] at h
      exact Except.noConfusion h
    | ok u =>
      simp only [build_request, hu] at h
      injection h with h2
      subst h2
      rfl
  · rw [if_neg hc]
    rw [if_neg hc] at h
    simp only [okBind] at h
    cases hu : parseUrl base with
    | error e =>
      simp only [build_request, hu] at h
      exact Except.noConfusion h
    | ok u =>
      simp only [build_request, hu] at h
      injection h with h2
      subst h2
      rfl

/-- C2 witness: `epCount` (no override) serializes to the empty-object text,
and the request built for it against "http://a" has an empty body. -/
theorem c2_witness : epCount.data = none ∧ reqCount.body = [] :=
  ⟨rfl,
    (c2_empty_serialization_empty_body "http://a" epCount "\x7b\x7d" reqCount
      rfl rfl rfl).trans (by decide)⟩


/-- C3: for every declared response type and every decoder, parsing a
zero-length body returns `none` without attempting deserialization (the
decoder is arbitrary and unused), and `exec` on an empty-bodied response
succeeds with `none`. -/
theorem c3_empty_body_yields_none {R σ : Type} (endpoint : Endpoint R) (client : Client σ)
    (decode : Bytes → Except String R) (ty : ResponseType)
    (req : Request) (resp : Response) (s s' : σ)
    (hb : build client.base endpoint = Except.ok req)
    (hc : (client.execute req).run s = Except.ok (resp, s'))
    (hempty : resp.body = []) :
    parse ty resp.body decode = Except.ok none ∧
    (endpoint.exec client).run s = Except.ok (none, s') := by
  constructor
  · rw [hempty]
    rfl
  · simp only [Endpoint.exec, execReq, runBind, runLift, hb, okMap, okBind, okBindE, hc, hempty]
    rfl

/-- C3 witness: a concrete endpoint executed against a client answering with
a 204-style empty body yields `none`. -/
theorem c3_witness :
    parse ResponseType.JSON (⟨204, [], []⟩ : Response).body decodeCount = Except.ok none ∧
    (epCount.exec (constClient Unit "http://a" ⟨204, [], []⟩)).run () =
      Except.ok (none, ()) :=
  c3_empty_body_yields_none epCount (constClient Unit "http://a" ⟨204, [], []⟩)
    decodeCount ResponseType.JSON reqCount ⟨204, [], []⟩ () () rfl rfl rfl

/-- C4: for every execution entry point (typed, wrapped and raw output
shapes, middleware-enabled and not, asynchronous and blocking), a failure at
any stage — request building, middleware request hook, transport execution,
middleware response hook, response parsing — aborts the call immediately and
the first error is returned unchanged.  When request building (or the request
hook, inside `build_mut`) fails, the result is that error for every client
with that base URL and the state is untouched: the transport's `execute` is
never invoked and no later stage runs. -/
theorem c4_fail_fast_error_propagation {R W σ : Type} (endpoint : Endpoint R)
    (wrapper : Wrapper R W) (err : ClientError) (s : σ) :
    (∀ (client other : Client σ) (bclient bother : BlockingClient σ),
      other.base = client.base → bclient.base = client.base → bother.base = client.base →
      build client.base endpoint = Except.error err →
      (endpoint.exec client).run s = Except.error err ∧
      (endpoint.exec other).run s = Except.error err ∧
      (endpoint.exec_wrap client wrapper).run s = Except.error err ∧
      (endpoint.exec_wrap other wrapper).run s = Except.error err ∧
      (endpoint.exec_raw client).run s = Except.error err ∧
      (endpoint.exec_raw other).run s = Except.error err ∧
      (endpoint.exec_block bclient).run s = Except.error err ∧
      (endpoint.exec_block bother).run s = Except.error err ∧
      (endpoint.exec_wrap_block bclient wrapper).run s = Except.error err ∧
      (endpoint.exec_wrap_block bother wrapper).run s = Except.error err ∧
      (endpoint.exec_raw_block bclient).run s = Except.error err ∧
      (endpoint.exec_raw_block bother).run s = Except.error err) ∧
    (∀ (client other : Client σ) (bclient bother : BlockingClient σ) (middle : MiddleWare σ R),
      other.base = client.base → bclient.base = client.base → bother.base = client.base →
      (build_mut client.base endpoint middle).run s = Except.error err →
      (endpoint.exec_mut client middle).run s = Except.error err ∧
      (endpoint.exec_mut other middle).run s = Except.error err ∧
      (endpoint.exec_wrap_mut client middle wrapper).run s = Except.error err ∧
      (endpoint.exec_wrap_mut other middle wrapper).run s = Except.error err ∧
      (endpoint.exec_raw_mut client middle).run s = Except.error err ∧
      (endpoint.exec_raw_mut other middle).run s = Except.error err ∧
      (endpoint.exec_mut_block bclient middle).run s = Except.error err ∧
      (endpoint.exec_mut_block bother middle).run s = Except.error err ∧
      (endpoint.exec_wrap_mut_block bclient middle wrapper).run s = Except.error err ∧
      (endpoint.exec_wrap_mut_block bother middle wrapper).run s = Except.error err ∧
      (endpoint.exec_raw_mut_block bclient middle).run s = Except.error err ∧
      (endpoint.exec_raw_mut_block bother middle).run s = Except.error err) ∧
    (∀ (client : Client σ) (req : Request),
      build client.base endpoint = Except.ok req →
      (client.execute req).run s = Except.error err →
      (endpoint.exec client).run s = Except.error err ∧
      (endpoint.exec_wrap client wrapper).run s = Except.error err ∧
      (endpoint.exec_raw client).run s = Except.error err) ∧
    (∀ (bclient : BlockingClient σ) (req : Request),
      build bclient.base endpoint = Except.ok req →
      (bclient.execute req).run s = Except.error err →
      (endpoint.exec_block bclient).run s = Except.error err ∧
      (endpoint.exec_wrap_block bclient wrapper).run s = Except.error err ∧
      (endpoint.exec_raw_block bclient).run s = Except.error err) ∧
    (∀ (client : Client σ) (middle : MiddleWare σ R) (req : Request) (s₁ : σ),
      (build_mut client.base endpoint middle).run s = Except.ok (req, s₁) →
      (client.execute req).run s₁ = Except.error err →
      (endpoint.exec_mut client middle).run s = Except.error err ∧
      (endpoint.exec_wrap_mut client middle wrapper).run s = Except.error err ∧
      (endpoint.exec_raw_mut client middle).run s = Except.error err) ∧
    (∀ (bclient : BlockingClient σ) (middle : MiddleWare σ R) (req : Request) (s₁ : σ),
      (build_mut bclient.base endpoint middle).run s = Except.ok (req, s₁) →
      (bclient.execute req).run s₁ = Except.error err →
      (endpoint.exec_mut_block bclient middle).run s = Except.error err ∧
      (endpoint.exec_wrap_mut_block bclient middle wrapper).run s = Except.error err ∧
      (endpoint.exec_raw_mut_block bclient middle).run s = Except.error err) ∧
    (∀ (client : Client σ) (middle : MiddleWare σ R) (req : Request) (resp : Response)
        (s₁ s₂ : σ),
      (build_mut client.base endpoint middle).run s = Except.ok (req, s₁) →
      (client.execute req).run s₁ = Except.ok (resp, s₂) →
      (middle.response endpoint resp).run s₂ = Except.error err →
      (endpoint.exec_mut client middle).run s = Except.error err ∧
      (endpoint.exec_wrap_mut client middle wrapper).run s = Except.error err ∧
      (endpoint.exec_raw_mut client middle).run s = Except.error err) ∧
    (∀ (bclient : BlockingClient σ) (middle : MiddleWare σ R) (req : Request) (resp : Response)
        (s₁ s₂ : σ),
      (build_mut bclient.base endpoint middle).run s = Except.ok (req, s₁) →
      (bclient.execute req).run s₁ = Except.ok (resp, s₂) →
      (middle.response endpoint resp).run s₂ = Except.error err →
      (endpoint.exec_mut_block bclient middle).run s = Except.error err ∧
      (endpoint.exec_wrap_mut_block bclient middle wrapper).run s = Except.error err ∧
      (endpoint.exec_raw_mut_block bclient middle).run s = Except.error err) ∧
    (∀ (client : Client σ) (req : Request) (resp : Response) (s₁ : σ),
      build client.base endpoint = Except.ok req →
      (client.execute req).run s = Except.ok (resp, s₁) →
      (parse endpoint.RESPONSE_BODY_TYPE resp.body endpoint.decodeResult = Except.error err →
        (endpoint.exec client).run s = Except.error err) ∧
      (parse endpoint.RESPONSE_BODY_TYPE resp.body wrapper.decode = Except.error err →
        (endpoint.exec_wrap client wrapper).run s = Except.error err)) ∧
    (∀ (bclient : BlockingClient σ) (req : Request) (resp : Response) (s₁ : σ),
      build bclient.base endpoint = Except.ok req →
      (bclient.execute req).run s = Except.ok (resp, s₁) →
      (parse endpoint.RESPONSE_BODY_TYPE resp.body endpoint.decodeResult = Except.error err →
        (endpoint.exec_block bclient).run s = Except.error err) ∧
      (parse endpoint.RESPONSE_BODY_TYPE resp.body wrapper.decode = Except.error err →
        (endpoint.exec_wrap_block bclient wrapper).run s = Except.error err)) ∧
    (∀ (client : Client σ) (middle : MiddleWare σ R) (req : Request) (resp resp2 : Response)
        (s₁ s₂ s₃ : σ),
      (build_mut client.base endpoint middle).run s = Except.ok (req, s₁) →
      (client.execute req).run s₁ = Except.ok (resp, s₂) →
      (middle.response endpoint resp).run s₂ = Except.ok (resp2, s₃) →
      (parse endpoint.RESPONSE_BODY_TYPE resp2.body endpoint.decodeResult = Except.error err →
        (endpoint.exec_mut client middle).run s = Except.error err) ∧
      (parse endpoint.RESPONSE_BODY_TYPE resp2.body wrapper.decode = Except.error err →
        (endpoint.exec_wrap_mut client middle wrapper).run s = Except.error err)) ∧
    (∀ (bclient : BlockingClient σ) (middle : MiddleWare σ R) (req : Request)
        (resp resp2 : Response) (s₁ s₂ s₃ : σ),
      (build_mut bclient.base endpoint middle).run s = Except.ok (req, s₁) →
      (bclient.execute req).run s₁ = Except.ok (resp, s₂) →
      (middle.response endpoint resp).run s₂ = Except.ok (resp2, s₃) →
      (parse endpoint.RESPONSE_BODY_TYPE resp2.body endpoint.decodeResult = Except.error err →
        (endpoint.exec_mut_block bclient middle).run s = Except.error err) ∧
      (parse endpoint.RESPONSE_BODY_TYPE resp2.body wrapper.decode = Except.error err →
        (endpoint.exec_wrap_mut_block bclient middle wrapper).run s = Except.error err)) := by
  refine ⟨?_, ?_, ?_, ?_, ?_, ?_, ?_, ?_, ?_, ?_, ?_, ?_⟩
  · intro client other bclient bother hob hbb hbo hfail
    refine ⟨?_, ?_, ?_, ?_, ?_, ?_, ?_, ?_, ?_, ?_, ?_, ?_⟩ <;>
      simp only [Endpoint.exec, Endpoint.exec_wrap, Endpoint.exec_raw, Endpoint.exec_block,
        Endpoint.exec_wrap_block, Endpoint.exec_raw_block, runBind, runLift, hob, hbb, hbo,
        hfail, errMap, errBindE]
  · intro client other bclient bother middle hob hbb hbo hfail
    refine ⟨?_, ?_, ?_, ?_, ?_, ?_, ?_, ?_, ?_, ?_, ?_, ?_⟩ <;>
      simp only [Endpoint.exec_mut, Endpoint.exec_wrap_mut, Endpoint.exec_raw_mut,
        Endpoint.exec_mut_block, Endpoint.exec_wrap_mut_block, Endpoint.exec_raw_mut_block,
        runBind, hob, hbb, hbo, hfail, errBindE]
  · intro client req hb hexe
    refine ⟨?_, ?_, ?_⟩ <;>
      simp only [Endpoint.exec, Endpoint.exec_wrap, Endpoint.exec_raw, execReq, runBind,
        runLift, hb, okMap, okBindE, hexe, errBindE]
  · intro bclient req hb hexe
    refine ⟨?_, ?_, ?_⟩ <;>
      simp only [Endpoint.exec_block, Endpoint.exec_wrap_block, Endpoint.exec_raw_block,
        execReqBlock, runBind, runLift, hb, okMap, okBindE, hexe, errBindE]
  · intro client middle req s₁ hbm hexe
    refine ⟨?_, ?_, ?_⟩ <;>
      simp only [Endpoint.exec_mut, Endpoint.exec_wrap_mut, Endpoint.exec_raw_mut, execReqMut,
        runBind, hbm, okBindE, hexe, errBindE]
  · intro bclient middle req s₁ hbm hexe
    refine ⟨?_, ?_, ?_⟩ <;>
      simp only [Endpoint.exec_mut_block, Endpoint.exec_wrap_mut_block,
        Endpoint.exec_raw_mut_block, execReqMutBlock, runBind, hbm, okBindE, hexe, errBindE]
  · intro client middle req resp s₁ s₂ hbm hexe hhook
    refine ⟨?_, ?_, ?_⟩ <;>
      simp only [Endpoint.exec_mut, Endpoint.exec_wrap_mut, Endpoint.exec_raw_mut, execReqMut,
        runBind, hbm, okBindE, hexe, hhook, errBindE]
  · intro bclient middle req resp s₁ s₂ hbm hexe hhook
    refine ⟨?_, ?_, ?_⟩ <;>
      simp only [Endpoint.exec_mut_block, Endpoint.exec_wrap_mut_block,
        Endpoint.exec_raw_mut_block, execReqMutBlock, runBind, hbm, okBindE, hexe, hhook,
        errBindE]
  · intro client req resp s₁ hb hexe
    refine ⟨fun hparse => ?_, fun hparse => ?_⟩ <;>
      simp only [Endpoint.exec, Endpoint.exec_wrap, execReq, runBind, runLift, hb, okMap,
        okBindE, hexe, hparse, errMap]
  · intro bclient req resp s₁ hb hexe
    refine ⟨fun hparse => ?_, fun hparse => ?_⟩ <;>
      simp only [Endpoint.exec_block, Endpoint.exec_wrap_block, execReqBlock, runBind, runLift,
        hb, okMap, okBindE, hexe, hparse, errMap]
  · intro client middle req resp resp2 s₁ s₂ s₃ hbm hexe hhook
    refine ⟨fun hparse => ?_, fun hparse => ?_⟩ <;>
      simp only [Endpoint.exec_mut, Endpoint.exec_wrap_mut, execReqMut, runBind, runLift, hbm,
        okBindE, hexe, hhook, hparse, errMap]
  · intro bclient middle req resp resp2 s₁ s₂ s₃ hbm hexe hhook
    refine ⟨fun hparse => ?_, fun hparse => ?_⟩ <;>
      simp only [Endpoint.exec_mut_block, Endpoint.exec_wrap_mut_block, execReqMutBlock,
        runBind, runLift, hbm, okBindE, hexe, hhook, hparse, errMap]

/-- C4 witness: against the malformed base URL "nota url", execution fails
with the URL-parse error naming that string, for both the typed and the raw
output shape, for the blocking variant, and identically for a client with an
entirely different transport (the transport is never consulted). -/
theorem c4_witness :
    (epCount.exec (constClient Unit "nota url" ⟨200, [], [1]⟩)).run () =
      Except.error (ClientError.UrlParseError "nota url" "relative URL without a base") ∧
    (epCount.exec (constClient Unit "nota url" ⟨500, [], [2, 3]⟩)).run () =
      Except.error (ClientError.UrlParseError "nota url" "relative URL without a base") ∧
    (epCount.exec_raw (constClient Unit "nota url" ⟨200, [], [1]⟩)).run () =
      Except.error (ClientError.UrlParseError "nota url" "relative URL without a base") ∧
    (epCount.exec_block (constBlockingClient Unit "nota url" ⟨200, [], [1]⟩)).run () =
      Except.error (ClientError.UrlParseError "nota url" "relative URL without a base") := by
  have h := (c4_fail_fast_error_propagation epCount wrapCount
      (ClientError.UrlParseError "nota url" "relative URL without a base") ()).1
    (constClient Unit "nota url" ⟨200, [], [1]⟩)
    (constClient Unit "nota url" ⟨500, [], [2, 3]⟩)
    (constBlockingClient Unit "nota url" ⟨200, [], [1]⟩)
    (constBlockingClient Unit "nota url" ⟨500, [], [2, 3]⟩) rfl rfl rfl rfl
  exact ⟨h.1, h.2.1, h.2.2.2.2.1, h.2.2.2.2.2.2.1⟩


/-- C5: in every middleware-enabled execution (typed, wrapped and raw output
shapes, asynchronous and blocking) over event-recording collaborators built
from arbitrary pure transforms, the recorded trace is exactly: the request
hook applied once to the fully built request, then the transport applied once
to the hook-mutated request, then the response hook applied once to the
transport's response — and parsing (where the entry point parses at all)
consumes the hook-mutated response body.  This holds whether parsing succeeds
or fails. -/
theorem c5_middleware_hook_ordering {R W : Type} (endpoint : Endpoint R)
    (wrapper : Wrapper R W) (base : String) (f : Request → Request)
    (g : Response → Response) (t : Request → Response) (req : Request)
    (hb : build base endpoint = Except.ok req) :
    (endpoint.exec_mut (loggingClient base t) (loggingMiddleWare f g)).run [] =
      (parse endpoint.RESPONSE_BODY_TYPE (g (t (f req))).body endpoint.decodeResult).map
        (fun v => (v, [Event.requestHook req, Event.transportExec (f req),
          Event.responseHook (t (f req))])) ∧
    (endpoint.exec_wrap_mut (loggingClient base t) (loggingMiddleWare f g) wrapper).run [] =
      (parse endpoint.RESPONSE_BODY_TYPE (g (t (f req))).body wrapper.decode).map
        (fun v => (v, [Event.requestHook req, Event.transportExec (f req),
          Event.responseHook (t (f req))])) ∧
    (endpoint.exec_raw_mut (loggingClient base t) (loggingMiddleWare f g)).run [] =
      Except.ok ((g (t (f req))).body,
        [Event.requestHook req, Event.transportExec (f req),
          Event.responseHook (t (f req))]) ∧
    (endpoint.exec_mut_block (loggingBlockingClient base t) (loggingMiddleWare f g)).run [] =
      (parse endpoint.RESPONSE_BODY_TYPE (g (t (f req))).body endpoint.decodeResult).map
        (fun v => (v, [Event.requestHook req, Event.transportExec (f req),
          Event.responseHook (t (f req))])) ∧
    (endpoint.exec_wrap_mut_block (loggingBlockingClient base t) (loggingMiddleWare f g)
        wrapper).run [] =
      (parse endpoint.RESPONSE_BODY_TYPE (g (t (f req))).body wrapper.decode).map
        (fun v => (v, [Event.requestHook req, Event.transportExec (f req),
          Event.responseHook (t (f req))])) ∧
    (endpoint.exec_raw_mut_block (loggingBlockingClient base t) (loggingMiddleWare f g)).run
        [] =
      Except.ok ((g (t (f req))).body,
        [Event.requestHook req, Event.transportExec (f req),
          Event.responseHook (t (f req))]) := by
  cases hbb : build_body endpoint endpoint.REQUEST_BODY_TYPE endpoint.data with
  | error e =>
    rw [build, hbb] at hb
    exact Except.noConfusion hb
  | ok b =>
    have hbr : build_request base endpoint.path endpoint.method endpoint.query b =
        Except.ok req := by
      rw [build, hbb] at hb
      exact hb
    refine ⟨?_, ?_, ?_, ?_, ?_, ?_⟩ <;>
      simp only [Endpoint.exec_mut, Endpoint.exec_wrap_mut, Endpoint.exec_raw_mut,
        Endpoint.exec_mut_block, Endpoint.exec_wrap_mut_block, Endpoint.exec_raw_mut_block,
        build_mut, execReqMut, execReqMutBlock, loggingClient, loggingBlockingClient,
        loggingMiddleWare, runBind, runLift, hbb, hbr, okMap, okBindE] <;>
      rfl

/-- C5 witness: a concrete middleware-enabled execution records exactly the
three events in order; the transport observes the Authorization header added
by the request hook, the parsed result comes from the response body, and the
raw-bytes entry point records the same trace. -/
theorem c5_witness :
    (epCount.exec_mut (loggingClient "http://a" (fun _ => respJson3))
        (loggingMiddleWare addAuthHeader (fun p => p))).run [] =
      Except.ok (some ⟨3⟩,
        [Event.requestHook reqCount, Event.transportExec (addAuthHeader reqCount),
          Event.responseHook respJson3]) ∧
    (epCount.exec_raw_mut (loggingClient "http://a" (fun _ => respJson3))
        (loggingMiddleWare addAuthHeader (fun p => p))).run [] =
      Except.ok (respJson3.body,
        [Event.requestHook reqCount, Event.transportExec (addAuthHeader reqCount),
          Event.responseHook respJson3]) := by
  have h := c5_middleware_hook_ordering epCount wrapCount "http://a" addAuthHeader
    (fun p => p) (fun _ => respJson3) reqCount rfl
  exact ⟨h.1.trans (by rfl), h.2.2.1.trans (by rfl)⟩

/-- C6: the blocking entry points compute exactly the same function as their
asynchronous counterparts, given a blocking client with the same base URL and
the same transport behavior. -/
theorem c6_blocking_equals_async {R W σ : Type} (endpoint : Endpoint R) (client : Client σ)
    (bclient : BlockingClient σ) (middle : MiddleWare σ R) (wrapper : Wrapper R W)
    (hbase : client.base = bclient.base)
    (hexec : ∀ req, client.execute req = bclient.execute req) :
    endpoint.exec client = endpoint.exec_block bclient ∧
    endpoint.exec_mut client middle = endpoint.exec_mut_block bclient middle ∧
    endpoint.exec_wrap client wrapper = endpoint.exec_wrap_block bclient wrapper ∧
    endpoint.exec_wrap_mut client middle wrapper =
      endpoint.exec_wrap_mut_block bclient middle wrapper ∧
    endpoint.exec_raw client = endpoint.exec_raw_block bclient ∧
    endpoint.exec_raw_mut client middle = endpoint.exec_raw_mut_block bclient middle := by
  have hex : client.execute = bclient.execute := funext hexec
  refine ⟨?_, ?_, ?_, ?_, ?_, ?_⟩ <;>
    simp only [Endpoint.exec, Endpoint.exec_block, Endpoint.exec_mut, Endpoint.exec_mut_block,
      Endpoint.exec_wrap, Endpoint.exec_wrap_block, Endpoint.exec_wrap_mut,
      Endpoint.exec_wrap_mut_block, Endpoint.exec_raw, Endpoint.exec_raw_block,
      Endpoint.exec_raw_mut, Endpoint.exec_raw_mut_block, execReq, execReqBlock, execReqMut,
      execReqMutBlock, build_mut, hbase, hex]

/-- C6 witness: at a concrete endpoint and a concrete pair of clients with the
same base URL and transport, the asynchronous and blocking entry points are
equal. -/
theorem c6_witness :
    epCount.exec (constClient Unit "http://a" respJson3) =
      epCount.exec_block (constBlockingClient Unit "http://a" respJson3) ∧
    epCount.exec_raw (constClient Unit "http://a" respJson3) =
      epCount.exec_raw_block (constBlockingClient Unit "http://a" respJson3) := by
  have h := c6_blocking_equals_async epCount (constClient Unit "http://a" respJson3)
    (constBlockingClient Unit "http://a" respJson3) (mwIdentity Unit Count) wrapCount rfl
    (fun req => rfl)
  exact ⟨h.1, h.2.2.2.2.1⟩

/-- C7: when a non-empty body fails to deserialize, the surfaced
`ResponseParseError` carries the underlying deserialization error together
with the best-effort UTF-8 decode of the original body, which is exactly the
body's text when the body is valid UTF-8 (the UTF-8 encoding of some string)
and is absent when the body is not valid UTF-8. -/
theorem c7_parse_error_carries_utf8_body {R : Type} (ty : ResponseType) (body : Bytes)
    (decode : Bytes → Except String R) (err : String)
    (hne : body ≠ []) (hfail : decode body = Except.error err) :
    parse ty body decode =
      Except.error (ClientError.ResponseParseError err (utf8Decode body)) ∧
    (∀ s : String, utf8Encode s = body → utf8Decode body = some s) ∧
    ((∀ s : String, utf8Encode s ≠ body) → utf8Decode body = none) := by
  refine ⟨?_, ?_, ?_⟩
  · simp only [parse]
    rw [if_neg (fun hh => hne (List.length_eq_zero.mp hh))]
    cases ty
    simp only [hfail]
  · intro s hs
    rw [← hs, utf8Decode_utf8Encode]
  · intro hno
    cases hd : utf8Decode body with
    | none => rfl
    | some s => exact absurd (utf8Decode_sound body s hd) (hno s)

/-- C7 witness: the bytes of "oops" fail to parse as a `Count` and the error
carries the text "oops"; the lone byte 0xFF is not valid UTF-8, and the error
carries no textual content. -/
theorem c7_witness :
    parse ResponseType.JSON [111, 111, 112, 115] decodeCount =
      Except.error (ClientError.ResponseParseError "invalid JSON for Count" (some "oops")) ∧
    parse ResponseType.JSON [0xFF] decodeCount =
      Except.error
        (ClientError.ResponseParseError "response body is not valid UTF-8" none) :=
  ⟨(c7_parse_error_carries_utf8_body ResponseType.JSON [111, 111, 112, 115] decodeCount
      "invalid JSON for Count" (by decide) rfl).1,
    (c7_parse_error_carries_utf8_body ResponseType.JSON [0xFF] decodeCount
      "response body is not valid UTF-8" (by decide) rfl).1⟩

/-- C8: response parsing is a pure function of the declared response type and
the body bytes: for every `n`, parsing the JSON document for `count = n`
yields exactly the value with `count = n` (field-for-field equal to the
document), and parsing the same bytes a second time yields an equal value. -/
theorem c8_parse_roundtrip_pure (ty : ResponseType) (n : Nat) :
    parse ty (utf8Encode (renderCount n)) decodeCount = Except.ok (some ⟨n⟩) ∧
    parse ty (utf8Encode (renderCount n)) decodeCount =
      parse ty (utf8Encode (renderCount n)) decodeCount := by
  refine ⟨?_, rfl⟩
  have hcons : utf8Encode (renderCount n) =
      123 :: encodeChars ('"' :: 'c' :: 'o' :: 'u' :: 'n' :: 't' :: '"' :: ':' ::
        (natToDigits n ++ ['\x7d'])) := rfl
  simp only [parse]
  rw [if_neg (by rw [hcons]; simp)]
  cases ty
  simp only [decodeCount_renderCount]

/-- C9: `exec_raw_mut` returns the response body as mutated by the
middleware's response hook, not the transport's original body. -/
theorem c9_raw_mut_returns_hook_mutated_body {R σ : Type} (endpoint : Endpoint R)
    (client : Client σ) (middle : MiddleWare σ R) (req : Request) (resp resp2 : Response)
    (s s₁ s₂ s₃ : σ)
    (hb : (build_mut client.base endpoint middle).run s = Except.ok (req, s₁))
    (hc : (client.execute req).run s₁ = Except.ok (resp, s₂))
    (hr : (middle.response endpoint resp).run s₂ = Except.ok (resp2, s₃)) :
    (endpoint.exec_raw_mut client middle).run s = Except.ok (resp2.body, s₃) := by
  simp only [Endpoint.exec_raw_mut, execReqMut, runBind, runPure, hb, okBindE, hc, hr]

/-- C9 witness: the transport returns body `[1]`, the response hook rewrites
it to `[9]`, and `exec_raw_mut` returns `[9]`. -/
theorem c9_witness :
    (epCount.exec_raw_mut (constClient Unit "http://a" ⟨200, [], [1]⟩)
        (mwSetRespBody Unit Count [9])).run () = Except.ok ([9], ()) :=
  c9_raw_mut_returns_hook_mutated_body epCount
    (constClient Unit "http://a" ⟨200, [], [1]⟩) (mwSetRespBody Unit Count [9])
    reqCount ⟨200, [], [1]⟩ ⟨200, [], [9]⟩ () () () () rfl rfl rfl

/-- C10: when the middleware's request hook is the identity (returns the
request unchanged, succeeding), `build_mut` returns exactly the request that
`build` builds; when both hooks are the identity, each middleware-enabled
entry point equals its non-middleware counterpart of the same output shape. -/
theorem c10_identity_middleware_equals_plain {R W σ : Type} (endpoint : Endpoint R)
    (client : Client σ) (middle : MiddleWare σ R) (wrapper : Wrapper R W)
    (hreq : ∀ r, middle.request endpoint r = pure r)
    (hresp : ∀ p, middle.response endpoint p = pure p) :
    (∀ s : σ, (build_mut client.base endpoint middle).run s =
      (build client.base endpoint).map (fun r => (r, s))) ∧
    endpoint.exec_mut client middle = endpoint.exec client ∧
    endpoint.exec_wrap_mut client middle wrapper = endpoint.exec_wrap client wrapper ∧
    endpoint.exec_raw_mut client middle = endpoint.exec_raw client := by
  have hbm : ∀ s : σ, (build_mut client.base endpoint middle).run s =
      (build client.base endpoint).map (fun r => (r, s)) := by
    intro s
    cases hbb : build_body endpoint endpoint.REQUEST_BODY_TYPE endpoint.data with
    | error e =>
      simp only [build_mut, build, runBind, runLift, hbb, errMap, errBind, errBindE]
    | ok b =>
      cases hbr : build_request client.base endpoint.path endpoint.method endpoint.query b with
      | error e =>
        simp only [build_mut, build, runBind, runLift, hbb, okMap, okBind, okBindE, hbr,
          errMap, errBind, errBindE]
      | ok r =>
        simp only [build_mut, build, runBind, runLift, hbb, okMap, okBind, okBindE, hbr,
          hreq, runPure]
  refine ⟨hbm, ?_, ?_, ?_⟩
  · funext s
    show (endpoint.exec_mut client middle).run s = (endpoint.exec client).run s
    simp only [Endpoint.exec_mut, Endpoint.exec, execReqMut, execReq, runBind, runLift, hbm]
    cases hb : build client.base endpoint with
    | error e => simp only [errMap, errBindE]
    | ok r =>
      simp only [okMap, okBindE]
      cases hce : (client.execute r).run s with
      | error e => simp only [errBindE]
      | ok q => simp only [okBindE, hresp, runPure]
  · funext s
    show (endpoint.exec_wrap_mut client middle wrapper).run s =
      (endpoint.exec_wrap client wrapper).run s
    simp only [Endpoint.exec_wrap_mut, Endpoint.exec_wrap, execReqMut, execReq, runBind,
      runLift, hbm]
    cases hb : build client.base endpoint with
    | error e => simp only [errMap, errBindE]
    | ok r =>
      simp only [okMap, okBindE]
      cases hce : (client.execute r).run s with
      | error e => simp only [errBindE]
      | ok q => simp only [okBindE, hresp, runPure]
  · funext s
    show (endpoint.exec_raw_mut client middle).run s = (endpoint.exec_raw client).run s
    simp only [Endpoint.exec_raw_mut, Endpoint.exec_raw, execReqMut, execReq, runBind,
      runLift, hbm]
    cases hb : build client.base endpoint with
    | error e => simp only [errMap, errBindE]
    | ok r =>
      simp only [okMap, okBindE]
      cases hce : (client.execute r).run s with
      | error e => simp only [errBindE]
      | ok q => simp only [okBindE, hresp, runPure]

/-- C10 witness: with the identity middleware, `build_mut` agrees with `build`
at a concrete endpoint, and `exec_mut` equals `exec` at a concrete client. -/
theorem c10_witness :
    (build_mut "http://a" epCount (mwIdentity Unit Count)).run () =
      (build "http://a" epCount).map (fun r => (r, ())) ∧
    epCount.exec_mut (constClient Unit "http://a" respJson3) (mwIdentity Unit Count) =
      epCount.exec (constClient Unit "http://a" respJson3) := by
  have h := c10_identity_middleware_equals_plain epCount
    (constClient Unit "http://a" respJson3) (mwIdentity Unit Count) wrapCount
    (fun r => rfl) (fun p => rfl)
  exact ⟨h.1 (), h.2.1⟩

end Rustify
